import Mathlib

/-!
A verification development for the foxi xBase library (pure-Go core).

The definitions below are a shallow embedding of the Go source:

* `St` models the mutable state of one open cursor over one data file
  (`Data4` plus its `Data4File` and the `Code4` transaction context of
  `part_004`): the current/previous/blank record buffers, the in-memory
  header record count (`Header.NumRecs`), the navigation flags, the
  on-disk file content, and the transaction journal.
* The data file's record area is modelled as a list of records
  (`List (List Nat)`, bytes as `Nat`); the byte position
  `headerLen + (n-1)*recordLen` used by the source corresponds to index
  `n-1` of this list, and the on-disk header's record-count field is the
  `hdrCount` component.  Machine integers (`int32`) are modelled as `Int`;
  none of the scenarios below approach `2^31`.
* Operations (`d4Go`, `d4Write`, `d4Skip`, `d4Delete`, ..., `d4Pack`,
  `code4TransRollback`) are transcribed from `data4.go`, `part_006`
  (record writing / pack) and `part_003` (transactions, field assign),
  returning the source's `int` error code together with the new state.
* The compound-index seek (`b4Seek`, `b4SearchBlock` of `index4.go`) is
  modelled over explicit block data; the `while`/`for` loops of the source
  become fuel-indexed recursion with fuel large enough to be irrelevant.
-/

namespace Foxi

/-- Error codes from `part_004` (matching the C definitions). -/
def ErrorNone : Int := 0

/-- `ErrorMemory` from `part_004`. -/
def ErrorMemory : Int := -910

/-- `ErrorRead` from `part_004`. -/
def ErrorRead : Int := -930

/-- `ErrorData` from `part_004`. -/
def ErrorData : Int := -980

/-- Seek result code `R4Success` from `part_004`. -/
def R4Success : Int := 0

/-- Seek result code `R4Found` from `part_004`. -/
def R4Found : Int := 1

/-- Seek result code `R4After` from `part_004`. -/
def R4After : Int := 2

/-- Seek result code `R4Eof` from `part_004`. -/
def R4Eof : Int := 3

/-- The tombstone byte for a live record: `' '`. -/
def spaceByte : Nat := 32

/-- The tombstone byte for a deleted record: `'*'`. -/
def starByte : Nat := 42

/-- A transaction-journal entry (`Trans4State` of `part_004`, with
`Operation` 1 = append, 2 = update, 3 = delete). -/
inductive TEntry where
  | appendE (recNo : Int)
  | updateE (recNo : Int) (oldRecord : List Nat)
  | deleteE (recNo : Int)
deriving DecidableEq, Repr

/-- The on-disk content of the data file: the record-count field of the
32-byte header (`hdrCount`, as written by `writeDbfHeader`), the record
area grouped into records, and the fixed record length used for byte
addressing.  The remaining header bytes are never changed by the
operations modelled here. -/
structure DFile where
  hdrCount : Int
  recs : List (List Nat)
  recLen : Nat
deriving DecidableEq, Repr

/-- The state of one open cursor: `Data4` + `Data4File.Header.NumRecs`
(`memCount`) + the `Code4` transaction journal (`translog`, `level`). -/
structure St where
  file : DFile
  memCount : Int
  recNo : Int
  atBof : Bool
  atEof : Bool
  record : List Nat
  recordOld : List Nat
  recordBlank : List Nat
  translog : List TEntry
  level : Nat
deriving DecidableEq, Repr

/-- Go's `copy(dst, src)`: overwrite the first `min |dst| |src|` entries of
`dst` with those of `src`, keeping the length of `dst`. -/
def copyOnto (dst src : List Nat) : List Nat :=
  src.take dst.length ++ dst.drop src.length

/-- `File4Write` of a whole record at record position `pos` (0-based):
overwrite in place, or extend the file (zero-filling any hole, as the OS
does for a write past end). -/
def storeAt (recs : List (List Nat)) (pos : Nat) (r : List Nat) (recLen : Nat) :
    List (List Nat) :=
  if pos < recs.length then recs.set pos r
  else recs ++ List.replicate (pos - recs.length) (List.replicate recLen 0) ++ [r]

/-- `D4Go` (`data4.go`): range-check the target, save the current record
buffer into `RecordOld`, read record `n` from the file, update the
navigation state.  A missing record is a short read (`ErrorRead`). -/
def d4Go (s : St) (n : Int) : Int × St :=
  if n < 1 ∨ n > s.memCount then (ErrorData, s)
  else
    match s.file.recs.get? (n - 1).toNat with
    | none => (ErrorRead, { s with recordOld := s.record })
    | some r =>
        (ErrorNone,
          { s with recordOld := s.record, record := r, recNo := n,
                   atEof := false, atBof := n == 1 })

/-- `d4WriteLow` (`part_006`): write the current record buffer at record
position `recNo`; if that position is beyond the in-memory count, bump the
count and rewrite the header.  (The `doFlush` argument only forces an OS
flush and has no effect on content.) -/
def d4WriteLow (s : St) (recNo : Int) : Int × St :=
  let f := { s.file with recs := storeAt s.file.recs (recNo - 1).toNat s.record s.file.recLen }
  let s1 := { s with file := f }
  if recNo > s1.memCount then
    (ErrorNone,
      { s1 with memCount := recNo, file := { s1.file with hdrCount := recNo } })
  else (ErrorNone, s1)

/-- `D4Write` (`part_006`): write the current record buffer at the current
position. -/
def d4Write (s : St) : Int × St :=
  d4WriteLow s s.recNo

/-- `D4Delete` (`part_006`): set the delete flag (first byte of the
in-memory record buffer) to `'*'`. -/
def d4Delete (s : St) : St :=
  { s with record := s.record.set 0 starByte }

/-- `D4Deleted` (`part_006`): the first byte of the record buffer is `'*'`. -/
def d4Deleted (s : St) : Bool :=
  s.record.getD 0 0 == starByte

/-- `D4Recall` (`part_006`): clear the delete flag to `' '`. -/
def d4Recall (s : St) : St :=
  { s with record := s.record.set 0 spaceByte }

/-- `D4Blank` (`data4.go`): copy the blank-record template into the
current record buffer. -/
def d4Blank (s : St) : St :=
  { s with record := copyOnto s.record s.recordBlank }

/-- `D4Top` (`data4.go`): empty file goes to the Empty state, otherwise
load record 1. -/
def d4Top (s : St) : Int × St :=
  if s.memCount = 0 then
    (ErrorNone, { s with atEof := true, atBof := true, recNo := 0 })
  else d4Go s 1

/-- Two's-complement wrap-around of a Go `int32` sum: the value in
`[-2^31, 2^31)` congruent to `x` modulo `2^32`. -/
def wrap32 (x : Int) : Int :=
  (x + 2147483648) % 4294967296 - 2147483648

/-- `D4Skip` (`data4.go`): move by `numRecs` relative to the current
record, with Before-first / After-last transitions at the boundaries.
The sum `data.recNo + numRecs` is Go `int32` arithmetic and wraps on
overflow, which `wrap32` reproduces (both operands are `int32`-valued in
the source, so the wrapped mathematical sum is exactly the machine
result). -/
def d4Skip (s : St) (numRecs : Int) : Int × St :=
  let newRecNo := wrap32 (s.recNo + numRecs)
  if newRecNo < 1 then
    (ErrorNone, { s with atBof := true, atEof := false, recNo := 0 })
  else if newRecNo > s.memCount then
    (ErrorNone, { s with atEof := true, atBof := false, recNo := s.memCount + 1 })
  else d4Go s newRecNo

/-- `Code4TransInit` (`part_003`): set the transaction level to 1 (the
transaction id and the log allocation carry no journal content). -/
def code4TransInit (s : St) : Int × St :=
  (ErrorNone, { s with level := 1 })

/-- `D4AppendStart` (`part_006`): bump the in-memory header count,
position on the new record, auto-start a transaction when none is
active.  (The `TransChanged` flag only drives commit-time flushing.) -/
def d4AppendStart (s : St) : Int × St :=
  let newRecordNo := s.memCount + 1
  let s1 := { s with memCount := newRecordNo, recNo := newRecordNo,
                     atEof := false, atBof := newRecordNo == 1 }
  if s1.level = 0 then (ErrorNone, (code4TransInit s1).2) else (ErrorNone, s1)

/-- `D4Append` (`part_006`): `D4AppendStart` then blank the new record. -/
def d4Append (s : St) : Int × St :=
  let r := d4AppendStart s
  if r.1 ≠ ErrorNone then r else (ErrorNone, d4Blank r.2)

/-- `D4TransAppend` (`part_003`): journal an append when a transaction is
active. -/
def d4TransAppend (s : St) (recNo : Int) : St :=
  if s.level = 0 then s
  else { s with translog := s.translog ++ [TEntry.appendE recNo] }

/-- `D4TransUpdate` (`part_003`): journal an update (a copy of the bytes in
`RecordOld`) when a transaction is active. -/
def d4TransUpdate (s : St) (recNo : Int) (oldRecord : List Nat) : St :=
  if s.level = 0 then s
  else { s with translog := s.translog ++ [TEntry.updateE recNo oldRecord] }

/-- `D4TransDelete` (`part_003`): journal a delete when a transaction is
active. -/
def d4TransDelete (s : St) (recNo : Int) : St :=
  if s.level = 0 then s
  else { s with translog := s.translog ++ [TEntry.deleteE recNo] }

/-- `D4AppendTrans` (`part_003`): append, then journal the new record
number. -/
def d4AppendTrans (s : St) : Int × St :=
  let r := d4Append s
  if r.1 ≠ ErrorNone then r else (ErrorNone, d4TransAppend r.2 r.2.recNo)

/-- `D4WriteTrans` (`part_003`): journal `RecordOld` as the update's saved
bytes, write the current record, then refresh `RecordOld` from it. -/
def d4WriteTrans (s : St) : Int × St :=
  let s1 := d4TransUpdate s s.recNo s.recordOld
  let r := d4Write s1
  if r.1 ≠ ErrorNone then r
  else (ErrorNone, { r.2 with recordOld := copyOnto r.2.recordOld r.2.record })

/-- `D4DeleteTrans` (`part_003`): journal the delete unless the record is
already flagged deleted, then flip the in-memory tombstone. -/
def d4DeleteTrans (s : St) : Int × St :=
  let s1 := if d4Deleted s then s else d4TransDelete s s.recNo
  (ErrorNone, d4Delete s1)

/-- One step of `Code4TransRollback`'s reverse replay (`part_003`), for the
single open data file: `Append` decrements the count and rewrites the
header; `Update` goes to the record, copies the saved bytes over the
buffer and writes; `Delete` goes to the record, recalls and writes.
Write results are ignored, as in the source. -/
def rollbackEntry (s : St) (e : TEntry) : St :=
  match e with
  | TEntry.appendE recNo =>
      if s.memCount ≥ recNo then
        { s with memCount := s.memCount - 1,
                 file := { s.file with hdrCount := s.memCount - 1 } }
      else s
  | TEntry.updateE recNo old =>
      if recNo > 0 then
        let r := d4Go s recNo
        if r.1 = ErrorNone then
          (d4Write { r.2 with record := copyOnto r.2.record old }).2
        else r.2
      else s
  | TEntry.deleteE recNo =>
      if recNo > 0 then
        let r := d4Go s recNo
        if r.1 = ErrorNone then (d4Write (d4Recall r.2)).2 else r.2
      else s

/-- `Code4TransRollback` (`part_003`): replay the journal from newest to
oldest, then clear the journal and the level. -/
def code4TransRollback (s : St) : Int × St :=
  if s.level = 0 then (ErrorMemory, s)
  else
    let s1 := s.translog.reverse.foldl rollbackEntry s
    (ErrorNone, { s1 with translog := [], level := 0 })

/-- `k` consecutive indices starting at `start`. -/
def idxFrom (start : Nat) : Nat → List Nat
  | 0 => []
  | k + 1 => start :: idxFrom (start + 1) k

/-- The index list `[1, ..., n]` that the `for` loop of `D4Pack` walks. -/
def packIdx (n : Nat) : List Nat :=
  idxFrom 1 n

/-- A record is live when its tombstone byte is not `'*'` (the negation of
`D4Deleted` read off a raw record). -/
def isLiveRec (r : List Nat) : Bool :=
  !(r.getD 0 0 == starByte)

/-- The scan loop of `D4Pack` (`part_006`): read record `i`; if it is not
deleted, bump the packed counter and, when the record moves, write the
buffer at the packed position (`doFlush = 0`). -/
def packLoop (s : St) (c : Int) : List Nat → Int × St × Int
  | [] => (ErrorNone, s, c)
  | i :: rest =>
      let r := d4Go s (i : Int)
      if r.1 ≠ ErrorNone then (r.1, r.2, c)
      else if d4Deleted r.2 then packLoop r.2 c rest
      else
        let c1 := c + 1
        if c1 ≠ (i : Int) then
          let w := d4WriteLow r.2 c1
          if w.1 ≠ ErrorNone then (w.1, w.2, c1) else packLoop w.2 c1 rest
        else packLoop r.2 c1 rest

/-- `D4Pack` (`part_006`): scan all records copying live ones to the next
packed position, set the new count, truncate the file to
`headerLen + newCount * recordLen` (index `newCount` of the record list),
rewrite the header, and go to the top (or to the Empty state). -/
def d4Pack (s : St) : Int × St :=
  let origCount := s.memCount
  let r := packLoop s 0 (packIdx origCount.toNat)
  if r.1 ≠ ErrorNone then (r.1, r.2.1)
  else
    let s1 := r.2.1
    let c := r.2.2
    let f2 := { s1.file with recs := s1.file.recs.take c.toNat, hdrCount := c }
    let s2 := { s1 with memCount := c, file := f2 }
    if c > 0 then d4Top s2
    else (ErrorNone, { s2 with recNo := 0, atEof := true, atBof := true })

/-! ## Header parsing (`parseDbfHeader`, `data4.go`) -/

/-- The format-variant byte at offset 0 of the header. -/
def hdrVersion (h : List Nat) : Nat :=
  h.getD 0 0

/-- The 16-bit little-endian header length at offsets 8-9. -/
def hdrHeaderLen (h : List Nat) : Nat :=
  h.getD 8 0 + 256 * h.getD 9 0

/-- The 16-bit little-endian record length at offsets 10-11. -/
def hdrRecordLen (h : List Nat) : Nat :=
  h.getD 10 0 + 256 * h.getD 11 0

/-- `parseDbfHeader` (`data4.go`): a short read of the 32 header bytes is
`ErrorRead`; a format-variant byte outside `0x03/0x30/0x43/0xF5`
(3/48/67/245), a header length below 33 or a record length below 1 is
`ErrorData`; otherwise the header is accepted. -/
def parseDbfHeader (h : List Nat) : Int :=
  if h.length < 32 then ErrorRead
  else if ¬(hdrVersion h = 3 ∨ hdrVersion h = 48 ∨ hdrVersion h = 67 ∨
            hdrVersion h = 245) then ErrorData
  else if hdrHeaderLen h < 33 ∨ hdrRecordLen h < 1 then ErrorData
  else ErrorNone

/-! ## Field assignment (`F4Assign`, `part_003`)

`F4Assign` space-fills the field region `[off, off+len)` of the current
record and dispatches on the field type; `F4Str` returns the raw bytes of
the region for character and numeric fields.  The numeric branch parses
the trimmed value with `strconv.ParseFloat` and renders it with
`fmt.Sprintf` using the field's declared decimal count; this
parse-and-format composite is IEEE-754 `float64` arithmetic in the source
and is abstracted here as an explicit function argument `fmtF` (taking the
trimmed value and the decimal count to the formatted digits, or `none`
when unparseable), so that everything the source does around it is
modelled exactly. -/

/-- Go `strings.TrimSpace` restricted to byte values: drop leading and
trailing ASCII whitespace. -/
def isWS (b : Nat) : Bool :=
  b == 32 || b == 9 || b == 10 || b == 11 || b == 12 || b == 13

/-- Drop leading and trailing whitespace bytes. -/
def trimSpace (l : List Nat) : List Nat :=
  ((l.dropWhile isWS).reverse.dropWhile isWS).reverse

/-- Replace the region `[off, off+cell.length)` of `record` by `cell`
(the effect of writing through the Go sub-slice `record[start:end]`). -/
def setRegion (record : List Nat) (off : Nat) (cell : List Nat) : List Nat :=
  record.take off ++ cell ++ record.drop (off + cell.length)

/-- The character cell produced by clear-to-spaces plus `assignCharField`:
the value left-copied, truncated to the width, space-padded on the
right. -/
def charCell (len : Nat) (v : List Nat) : List Nat :=
  v.take len ++ List.replicate (len - v.length) spaceByte

/-- The numeric cell produced by clear-to-spaces plus
`assignNumericField`: an unparseable value leaves the cell blank; a
formatted value is right-aligned when it fits and otherwise the whole
cell is filled with `'*'`. -/
def numCell (len : Nat) (formatted : Option (List Nat)) : List Nat :=
  match formatted with
  | none => List.replicate len spaceByte
  | some f =>
      if f.length ≤ len then List.replicate (len - f.length) spaceByte ++ f
      else List.replicate len starByte

/-- `F4Assign` on a character field: bounds check, then clear the region
and left-copy the value. -/
def f4AssignChar (record : List Nat) (off len : Nat) (value : List Nat) :
    Int × List Nat :=
  if off + len > record.length then (ErrorData, record)
  else (ErrorNone, setRegion record off (charCell len value))

/-- `F4Assign` on a numeric or float field: bounds check, clear the
region, parse-and-format the trimmed value through `fmtF`, right-align or
overflow-fill. -/
def f4AssignNum (record : List Nat) (off len dec : Nat)
    (fmtF : List Nat → Nat → Option (List Nat)) (value : List Nat) :
    Int × List Nat :=
  if off + len > record.length then (ErrorData, record)
  else (ErrorNone, setRegion record off (numCell len (fmtF (trimSpace value) dec)))

/-- `F4Str` on a character or numeric field: the raw bytes of the field
region of the current record. -/
def f4Str (record : List Nat) (off len : Nat) : List Nat :=
  (record.drop off).take len

/-! ## Compound-index seek (`index4.go`) -/

/-- One key entry of a B+ tree block: formatted key bytes plus the record
number. -/
structure B4Key where
  keyData : List Nat
  recNo : Int
deriving DecidableEq, Repr

/-- A parsed B+ tree block (`B4Block`): type byte (0 = leaf), key entries,
child pointers (branch blocks only). -/
structure B4Block where
  blockType : Nat
  keys : List B4Key
  pointers : List Int
deriving DecidableEq, Repr

/-- Go `strings.Compare`: byte-wise lexicographic three-way comparison. -/
def lexCmp : List Nat → List Nat → Int
  | [], [] => 0
  | [], _ :: _ => -1
  | _ :: _, [] => 1
  | a :: as, b :: bs =>
      if a < b then -1 else if b < a then 1 else lexCmp as bs

/-- The binary-search loop of `b4SearchBlock` (`index4.go`): compare the
seek value against the *trimmed* stored key; on exit return the insertion
point.  The loop is fuel-indexed; `keys.length + 2` fuel always
suffices. -/
def bsearchLoop (keys : List B4Key) (seek : List Nat) :
    Nat → Int → Int → Nat × Bool
  | 0, left, _ => (left.toNat, false)
  | fuel + 1, left, right =>
      if left > right then (left.toNat, false)
      else
        let mid := (left + right) / 2
        let keyValue := trimSpace (((keys.get? mid.toNat).getD ⟨[], 0⟩).keyData)
        let cmp := lexCmp seek keyValue
        if cmp = 0 then (mid.toNat, true)
        else if cmp < 0 then bsearchLoop keys seek fuel left (mid - 1)
        else bsearchLoop keys seek fuel (mid + 1) right

/-- `b4SearchBlock` (`index4.go`): binary search of a block, returning the
match index or the insertion point. -/
def b4SearchBlock (block : B4Block) (seek : List Nat) : Nat × Bool :=
  if block.keys.length = 0 then (0, false)
  else bsearchLoop block.keys seek (block.keys.length + 2) 0
        ((block.keys.length : Int) - 1)

/-- Look up a block by number (`b4ReadBlock` on an in-memory image of the
index file). -/
def lookupBlock (blocks : List (Int × B4Block)) (no : Int) : Option B4Block :=
  (blocks.find? (fun p => p.1 == no)).map (fun p => p.2)

/-- The descent loop of `b4Seek` (`index4.go`): search the current block;
in a leaf return `R4Success` / `R4After` / `R4Eof` with the record number;
in a branch follow the child pointer at the insertion point.  Fuel bounds
the descent depth; an unreadable block is `ErrorRead`. -/
def b4SeekLoop (blocks : List (Int × B4Block)) (seek : List Nat) :
    Nat → Int → Int × Int
  | 0, _ => (ErrorRead, 0)
  | fuel + 1, cur =>
      match lookupBlock blocks cur with
      | none => (ErrorRead, 0)
      | some block =>
          let sr := b4SearchBlock block seek
          if block.blockType = 0 then
            if sr.2 then
              (R4Success, (((block.keys.get? sr.1).getD ⟨[], 0⟩).recNo))
            else if sr.1 < block.keys.length then
              (R4After, (((block.keys.get? sr.1).getD ⟨[], 0⟩).recNo))
            else (R4Eof, 0)
          else
            if sr.1 < block.pointers.length then
              b4SeekLoop blocks seek fuel ((block.pointers.get? sr.1).getD 0)
            else (R4Eof, 0)

/-- `b4Seek` (`index4.go`): start from the root block and descend. -/
def b4Seek (blocks : List (Int × B4Block)) (root : Int) (seek : List Nat) :
    Int × Int :=
  if root ≤ 0 then (R4Eof, 0)
  else b4SeekLoop blocks seek (blocks.length + 1) root

/-! ## Concrete scenarios

`rbS0` is a freshly opened one-record data file (record length 2, record 1
is the live record `[' ', 'A']`) with a transaction made active by
`Code4TransInit`; the record buffers start zero-filled exactly as
`D4Open` allocates them (`make([]byte, recordLen)`). -/

/-- Initial state of the rollback scenario. -/
def rbS0 : St :=
  { file := { hdrCount := 1, recs := [[32, 65]], recLen := 2 },
    memCount := 1, recNo := 0, atBof := true, atEof := false,
    record := [0, 0], recordOld := [0, 0], recordBlank := [32, 32],
    translog := [], level := 1 }

/-- After `D4Go(1)`: the cursor sits on record 1. -/
def rbS1 : St :=
  (d4Go rbS0 1).2

/-- After assigning `'B'` to the one-byte character field at offset 1
(`F4Assign`): the in-memory record becomes `[' ', 'B']`. -/
def rbS2 : St :=
  { rbS1 with record := (f4AssignChar rbS1.record 1 1 [66]).2 }

/-- After the journaled write `D4WriteTrans`. -/
def rbS3 : St :=
  (d4WriteTrans rbS2).2

/-- After `Code4TransRollback`. -/
def rbS4 : Int × St :=
  code4TransRollback rbS3

/-- The leaf block of the seek scenario: a numeric tag of key length 3
holding the formatted keys `" 30"` (record 1) and `"100"` (record 2), in
increasing byte order as they are stored on disk. -/
def seekLeaf : B4Block :=
  { blockType := 0,
    keys := [{ keyData := [32, 51, 48], recNo := 1 },
             { keyData := [49, 48, 48], recNo := 2 }],
    pointers := [] }

/-- The index-file image of the seek scenario: the tag's root block is
block 2 and it is the single leaf. -/
def seekBlocks : List (Int × B4Block) :=
  [(2, seekLeaf)]

/-- The search key of the seek scenario: the formatted key `"100"`. -/
def seekKey : List Nat :=
  [49, 48, 48]

/-- A three-record data file with the cursor on record 2, used to
exercise navigation at concrete inputs. -/
def navS : St :=
  { file := { hdrCount := 3, recs := [[32, 65], [42, 66], [32, 67]], recLen := 2 },
    memCount := 3, recNo := 2, atBof := false, atEof := false,
    record := [42, 66], recordOld := [32, 65], recordBlank := [32, 32],
    translog := [], level := 0 }

/-- A well-formed 32-byte header: version 0x03, header length 97, record
length 14 (the two-field example of the specification). -/
def hdrEx : List Nat :=
  [3, 0, 0, 0, 0, 0, 0, 0, 97, 0, 14, 0] ++ List.replicate 20 0

/-- A blank 14-byte record (`[NAME C(10), AGE N(3)]` plus tombstone). -/
def c7Rec : List Nat :=
  List.replicate 14 spaceByte

/-- The character value `"Alice"`. -/
def c7Val : List Nat :=
  [65, 108, 105, 99, 101]

/-- The numeric input `"30"`. -/
def c7Num : List Nat :=
  [51, 48]

/-- The digits `"30"` produced by the decimal formatter for `"30"` with 0
decimals. -/
def c7Digits : List Nat :=
  [51, 48]

/-- A concrete instance of the abstract parse-and-format argument, used
only to evaluate the round-trip at a specific input. -/
def fmtEx (t : List Nat) (dec : Nat) : Option (List Nat) :=
  if t.isEmpty ∨ dec > 0 then none else some t

end Foxi

namespace Foxi

/-! ## Helper lemmas -/

theorem d4Go_out_of_range (s : St) (N : Int) (h : N < 1 ∨ N > s.memCount) :
    d4Go s N = (ErrorData, s) := by
  unfold d4Go
  rw [if_pos h]

theorem d4Go_in_range (s : St) (N : Int)
    (hc : s.memCount ≤ (s.file.recs.length : Int))
    (h1 : 1 ≤ N) (h2 : N ≤ s.memCount) :
    ∃ r, s.file.recs.get? (N - 1).toNat = some r ∧
      d4Go s N = (ErrorNone,
        { s with recordOld := s.record, record := r, recNo := N,
                 atEof := false, atBof := N == 1 }) := by
  have hnot : ¬(N < 1 ∨ N > s.memCount) := by omega
  have hlt : (N - 1).toNat < s.file.recs.length := by omega
  refine ⟨s.file.recs.get ⟨(N - 1).toNat, hlt⟩, List.get?_eq_get hlt, ?_⟩
  unfold d4Go
  rw [if_neg hnot, List.get?_eq_get hlt]

theorem d4WriteLow_in_range (s : St) (recNo : Int) (h : recNo ≤ s.memCount) :
    d4WriteLow s recNo = (ErrorNone,
      { s with file := { s.file with
          recs := storeAt s.file.recs (recNo - 1).toNat s.record s.file.recLen } }) := by
  simp only [d4WriteLow]
  rw [if_neg (by omega)]

theorem storeAt_lt (recs : List (List Nat)) (pos : Nat) (r : List Nat) (recLen : Nat)
    (h : pos < recs.length) :
    storeAt recs pos r recLen = recs.set pos r := by
  unfold storeAt
  rw [if_pos h]

/-! ## Claim theorems -/

/-- C4 counterexample to the claim as frozen: on the three-record file
`navS` with the cursor on record 2, `skip(2147483646)` has the
mathematical target `2147483648 > count`, so the claim asserts the
After-last state (record `count+1 = 4`, EOF).  The source's `int32` sum
wraps to `-2147483648`, and skip instead transitions to Before-first
(record 0, BOF, not EOF). -/
theorem c4_skip_wrap_counterexample :
    navS.recNo + 2147483646 > navS.memCount ∧
    d4Skip navS 2147483646 =
      (ErrorNone, { navS with atBof := true, atEof := false, recNo := 0 }) ∧
    (d4Skip navS 2147483646).2.recNo ≠ navS.memCount + 1 ∧
    (d4Skip navS 2147483646).2.atEof = false := by
  decide

/-- C4 (amended): for every open cursor and every integer `K`, `skip(K)`
with target = the two's-complement 32-bit sum of the current record
number and `K` lands on record `target` when `1 ≤ target ≤ count`,
transitions to Before-first (record 0, BOF, not EOF) when `target < 1`,
transitions to After-last (record `count+1`, EOF, not BOF) when
`target > count`, and never returns an error at a boundary; whenever
`recNo + K` does not overflow `int32`, the wrapped target coincides with
the plain sum `recNo + K` of the original claim. -/
theorem c4_skip_boundaries (s : St) (K : Int)
    (hc : s.memCount = (s.file.recs.length : Int)) :
    (wrap32 (s.recNo + K) < 1 →
      d4Skip s K = (ErrorNone, { s with atBof := true, atEof := false, recNo := 0 })) ∧
    (wrap32 (s.recNo + K) > s.memCount →
      d4Skip s K = (ErrorNone,
        { s with atEof := true, atBof := false, recNo := s.memCount + 1 })) ∧
    (1 ≤ wrap32 (s.recNo + K) → wrap32 (s.recNo + K) ≤ s.memCount →
      (d4Skip s K).1 = ErrorNone ∧ (d4Skip s K).2.recNo = wrap32 (s.recNo + K) ∧
      (d4Skip s K).2.atEof = false ∧
      (d4Skip s K).2.atBof = (wrap32 (s.recNo + K) == 1)) ∧
    (-2147483648 ≤ s.recNo + K → s.recNo + K < 2147483648 →
      wrap32 (s.recNo + K) = s.recNo + K) := by
  refine ⟨fun h => ?_, fun h => ?_, fun h1 h2 => ?_, fun hlo hhi => ?_⟩
  · unfold d4Skip
    rw [if_pos h]
  · unfold d4Skip
    rw [if_neg (by omega : ¬ wrap32 (s.recNo + K) < 1), if_pos h]
  · unfold d4Skip
    rw [if_neg (by omega : ¬ wrap32 (s.recNo + K) < 1),
        if_neg (by omega : ¬ wrap32 (s.recNo + K) > s.memCount)]
    obtain ⟨r, _, hgo⟩ := d4Go_in_range s (wrap32 (s.recNo + K)) (le_of_eq hc) h1 h2
    rw [hgo]
    exact ⟨rfl, rfl, rfl, rfl⟩
  · unfold wrap32
    omega

/-- Witness for C4 at the concrete state `navS` (count 3, current record
2): a backward overshoot, a forward overshoot, an in-range skip, and a
non-overflowing sum where the wrapped target is the plain sum. -/
theorem c4_skip_boundaries_witness :
    d4Skip navS (-7) = (ErrorNone, { navS with atBof := true, atEof := false, recNo := 0 }) ∧
    d4Skip navS 9 = (ErrorNone,
      { navS with atEof := true, atBof := false, recNo := navS.memCount + 1 }) ∧
    ((d4Skip navS 1).1 = ErrorNone ∧
     (d4Skip navS 1).2.recNo = wrap32 (navS.recNo + 1)) ∧
    wrap32 (navS.recNo + 1) = navS.recNo + 1 := by
  refine ⟨(c4_skip_boundaries navS (-7) (by decide)).1 (by decide),
          (c4_skip_boundaries navS 9 (by decide)).2.1 (by decide),
          ⟨((c4_skip_boundaries navS 1 (by decide)).2.2.1 (by decide) (by decide)).1,
           ((c4_skip_boundaries navS 1 (by decide)).2.2.1 (by decide) (by decide)).2.1⟩,
          (c4_skip_boundaries navS 1 (by decide)).2.2.2 (by decide) (by decide)⟩

/-- C5: delete followed by recall on the same record is the identity on
the on-disk tombstone byte — neither `D4Delete` nor `D4Recall` touches
the file, so the first byte of every on-disk record is unchanged. -/
theorem c5_delete_recall_tombstone (s : St) :
    (d4Recall (d4Delete s)).file = s.file ∧
    ∀ n : Nat,
      ((d4Recall (d4Delete s)).file.recs.getD n []).getD 0 0 =
        (s.file.recs.getD n []).getD 0 0 :=
  ⟨rfl, fun _ => rfl⟩

/-- C8: `goto(N)` fails (with the data-format error code) exactly when
`N < 1` or `N > count`, leaving the whole cursor state unchanged; on
success it positions on record `N` with `EOF = false` and
`BOF = (N == 1)`. -/
theorem c8_go_range_check (s : St) (N : Int)
    (hc : s.memCount = (s.file.recs.length : Int)) :
    ((N < 1 ∨ N > s.memCount) → d4Go s N = (ErrorData, s)) ∧
    (1 ≤ N → N ≤ s.memCount →
      (d4Go s N).1 = ErrorNone ∧ (d4Go s N).2.recNo = N ∧
      (d4Go s N).2.atEof = false ∧ (d4Go s N).2.atBof = (N == 1)) := by
  refine ⟨fun h => d4Go_out_of_range s N h, fun h1 h2 => ?_⟩
  obtain ⟨r, _, hgo⟩ := d4Go_in_range s N (le_of_eq hc) h1 h2
  rw [hgo]
  exact ⟨rfl, rfl, rfl, rfl⟩

/-- Witness for C8 at `navS`: `goto(5)` fails leaving the state intact,
`goto(0)` fails likewise, `goto(1)` succeeds. -/
theorem c8_go_range_check_witness :
    d4Go navS 5 = (ErrorData, navS) ∧ d4Go navS 0 = (ErrorData, navS) ∧
    (d4Go navS 1).1 = ErrorNone ∧ (d4Go navS 1).2.recNo = 1 :=
  ⟨(c8_go_range_check navS 5 (by decide)).1 (by decide),
   (c8_go_range_check navS 0 (by decide)).1 (by decide),
   ((c8_go_range_check navS 1 (by decide)).2 (by decide) (by decide)).1,
   ((c8_go_range_check navS 1 (by decide)).2 (by decide) (by decide)).2.1⟩

/-- C9: `D4Delete` and `D4Recall` touch only the first byte of the
in-memory record buffer — the file, the rest of the buffer and the
position state are unchanged — and the tombstone reaches the file only
through a subsequent write, which stores the flipped buffer at the
current record's position. -/
theorem c9_delete_recall_frame (s : St) :
    ((d4Delete s).file = s.file ∧ (d4Delete s).record.drop 1 = s.record.drop 1 ∧
     (d4Delete s).record.length = s.record.length ∧
     (d4Delete s).recNo = s.recNo ∧ (d4Delete s).recordOld = s.recordOld ∧
     (d4Delete s).memCount = s.memCount ∧
     (d4Delete s).atBof = s.atBof ∧ (d4Delete s).atEof = s.atEof) ∧
    ((d4Recall s).file = s.file ∧ (d4Recall s).record.drop 1 = s.record.drop 1 ∧
     (d4Recall s).record.length = s.record.length ∧
     (d4Recall s).recNo = s.recNo ∧ (d4Recall s).recordOld = s.recordOld ∧
     (d4Recall s).memCount = s.memCount ∧
     (d4Recall s).atBof = s.atBof ∧ (d4Recall s).atEof = s.atEof) ∧
    ((s.recNo - 1).toNat < s.file.recs.length → s.recNo ≤ s.memCount →
      (d4Write (d4Delete s)).2.file.recs.get? (s.recNo - 1).toNat =
        some (s.record.set 0 starByte)) := by
  refine ⟨⟨rfl, ?_, ?_, rfl, rfl, rfl, rfl, rfl⟩,
          ⟨rfl, ?_, ?_, rfl, rfl, rfl, rfl, rfl⟩, fun hlt hle => ?_⟩
  · show (s.record.set 0 starByte).drop 1 = s.record.drop 1
    cases s.record <;> simp
  · exact List.length_set s.record 0 starByte
  · show (s.record.set 0 spaceByte).drop 1 = s.record.drop 1
    cases s.record <;> simp
  · exact List.length_set s.record 0 spaceByte
  · show (d4WriteLow (d4Delete s) s.recNo).2.file.recs.get? (s.recNo - 1).toNat =
      some (s.record.set 0 starByte)
    rw [d4WriteLow_in_range (d4Delete s) s.recNo hle]
    show (storeAt s.file.recs (s.recNo - 1).toNat (s.record.set 0 starByte)
      s.file.recLen).get? (s.recNo - 1).toNat = some (s.record.set 0 starByte)
    rw [storeAt_lt _ _ _ _ hlt]
    rw [List.get?_set_eq, List.get?_eq_get hlt]
    rfl

/-- Witness for C9 at `navS`: after delete, write propagates the `'*'`
tombstone into record 2 of the file. -/
theorem c9_delete_recall_frame_witness :
    (d4Write (d4Delete navS)).2.file.recs.get? ((2 : Int) - 1).toNat =
      some (navS.record.set 0 starByte) :=
  (c9_delete_recall_frame navS).2.2 (by decide) (by decide)

/-- C10: every successful `goto(N)` copies the current record buffer into
the previous-record buffer before loading record `N`, which then becomes
the current buffer. -/
theorem c10_go_saves_record_old (s : St) (N : Int)
    (h : (d4Go s N).1 = ErrorNone) :
    (d4Go s N).2.recordOld = s.record ∧
    s.file.recs.get? (N - 1).toNat = some ((d4Go s N).2.record) := by
  by_cases hr : N < 1 ∨ N > s.memCount
  · rw [d4Go_out_of_range s N hr] at h
    simp [ErrorData, ErrorNone] at h
  · cases hm : s.file.recs.get? (N - 1).toNat with
    | none =>
        have hgo : d4Go s N = (ErrorRead, { s with recordOld := s.record }) := by
          unfold d4Go
          rw [if_neg hr, hm]
        rw [hgo] at h
        simp [ErrorRead, ErrorNone] at h
    | some r =>
        have hgo : d4Go s N = (ErrorNone,
            { s with recordOld := s.record, record := r, recNo := N,
                     atEof := false, atBof := N == 1 }) := by
          unfold d4Go
          rw [if_neg hr, hm]
        rw [hgo]
        exact ⟨rfl, rfl⟩

/-- Witness for C10: `goto(1)` from `navS` saves the bytes of record 2
(the current record) into the previous-record buffer. -/
theorem c10_go_saves_record_old_witness :
    (d4Go navS 1).2.recordOld = navS.record ∧
    navS.file.recs.get? ((1 : Int) - 1).toNat = some ((d4Go navS 1).2.record) :=
  c10_go_saves_record_old navS 1 (by decide)

/-- C6: with the 32 header bytes readable, open's header validation
rejects with the data-format error exactly the headers whose
format-variant byte lies outside `0x03/0x30/0x43/0xF5` or whose header
length is below 33 or whose record length is below 1, and accepts every
other header. -/
theorem c6_header_validation (h : List Nat) (hlen : 32 ≤ h.length) :
    (parseDbfHeader h = ErrorData ↔
      (¬(hdrVersion h = 3 ∨ hdrVersion h = 48 ∨ hdrVersion h = 67 ∨ hdrVersion h = 245) ∨
       hdrHeaderLen h < 33 ∨ hdrRecordLen h < 1)) ∧
    (parseDbfHeader h = ErrorNone ↔
      ((hdrVersion h = 3 ∨ hdrVersion h = 48 ∨ hdrVersion h = 67 ∨ hdrVersion h = 245) ∧
       33 ≤ hdrHeaderLen h ∧ 1 ≤ hdrRecordLen h)) := by
  unfold parseDbfHeader
  rw [if_neg (by omega : ¬ h.length < 32)]
  by_cases hv : hdrVersion h = 3 ∨ hdrVersion h = 48 ∨ hdrVersion h = 67 ∨ hdrVersion h = 245
  · rw [if_neg (not_not_intro hv)]
    by_cases hl : hdrHeaderLen h < 33 ∨ hdrRecordLen h < 1
    · rw [if_pos hl]
      refine ⟨⟨fun _ => Or.inr hl, fun _ => rfl⟩,
              ⟨fun he => absurd he (by decide), fun hc => ?_⟩⟩
      obtain ⟨_, h33, h1⟩ := hc
      exact absurd hl (by omega)
    · rw [if_neg hl]
      refine ⟨⟨fun he => absurd he (by decide), fun hd => ?_⟩,
              ⟨fun _ => ⟨hv, by omega, by omega⟩, fun _ => rfl⟩⟩
      rcases hd with hd | hd
      · exact absurd hv hd
      · exact absurd hd hl
  · rw [if_pos hv]
    exact ⟨⟨fun _ => Or.inl hv, fun _ => rfl⟩,
           ⟨fun he => absurd he (by decide), fun hc => absurd hc.1 hv⟩⟩

/-- Witness for C6: the two-field example header (version 0x03, header
length 97, record length 14) passes validation. -/
theorem c6_header_validation_witness :
    parseDbfHeader hdrEx = ErrorNone :=
  ((c6_header_validation hdrEx (by decide)).2).mpr ⟨by decide, by decide, by decide⟩

theorem f4Str_setRegion (record : List Nat) (off len : Nat) (cell : List Nat)
    (hc : cell.length = len) (hb : off + len ≤ record.length) :
    f4Str (setRegion record off cell) off len = cell := by
  unfold f4Str setRegion
  rw [hc, List.append_assoc]
  have hofr : off ≤ (record.take off).length := by
    rw [List.length_take]
    omega
  rw [List.drop_append_of_le_length hofr, List.drop_take]
  simp only [Nat.sub_self, List.take_zero, List.nil_append]
  rw [← hc, List.take_left]

theorem charCell_length (len : Nat) (v : List Nat) :
    (charCell len v).length = len := by
  unfold charCell
  rw [List.length_append, List.length_take, List.length_replicate]
  omega

theorem numCell_length (len : Nat) (formatted : Option (List Nat)) :
    (numCell len formatted).length = len := by
  cases formatted with
  | none => exact List.length_replicate len spaceByte
  | some f =>
      show (if f.length ≤ len then List.replicate (len - f.length) spaceByte ++ f
            else List.replicate len starByte).length = len
      by_cases hf : f.length ≤ len
      · rw [if_pos hf, List.length_append, List.length_replicate]
        omega
      · rw [if_neg hf]
        exact List.length_replicate len starByte

/-- C7: reading a field right after assigning produces the canonical
per-type cell: a character value is left-copied, truncated to the width
and space-padded; a numeric or float value is put through the decimal
parse-and-format composite (IEEE-754 `float64` in the source, abstracted
here as the argument `fmtF` applied to the trimmed input and the declared
decimal count) and then right-aligned, the whole cell becoming `'*'`s
when the formatted digits exceed the width (and staying blank when the
input is unparseable). -/
theorem c7_assign_read_roundtrip (record : List Nat) (off len dec : Nat)
    (fmtF : List Nat → Nat → Option (List Nat)) (v digits : List Nat)
    (hb : off + len ≤ record.length) :
    ((f4AssignChar record off len v).1 = ErrorNone ∧
     f4Str (f4AssignChar record off len v).2 off len =
       v.take len ++ List.replicate (len - v.length) spaceByte) ∧
    ((f4AssignNum record off len dec fmtF v).1 = ErrorNone ∧
     (fmtF (trimSpace v) dec = none →
        f4Str (f4AssignNum record off len dec fmtF v).2 off len =
          List.replicate len spaceByte) ∧
     (fmtF (trimSpace v) dec = some digits →
        f4Str (f4AssignNum record off len dec fmtF v).2 off len =
          (if digits.length ≤ len then
             List.replicate (len - digits.length) spaceByte ++ digits
           else List.replicate len starByte))) := by
  have hnb : ¬ off + len > record.length := by omega
  constructor
  · unfold f4AssignChar
    rw [if_neg hnb]
    exact ⟨rfl, f4Str_setRegion record off len (charCell len v) (charCell_length len v) hb⟩
  · unfold f4AssignNum
    rw [if_neg hnb]
    refine ⟨rfl, fun hf => ?_, fun hf => ?_⟩
    · rw [f4Str_setRegion record off len _ (numCell_length len _) hb, hf]
      rfl
    · rw [f4Str_setRegion record off len _ (numCell_length len _) hb, hf]
      rfl

/-- Witness for C7 on the 14-byte blank record: assigning `"Alice"` to
the 10-wide character field at offset 1 reads back as `"Alice"` plus five
spaces, and assigning `"30"` to the 3-wide numeric field at offset 11
(through the concrete formatter `fmtEx`) reads back right-aligned. -/
theorem c7_assign_read_roundtrip_witness :
    f4Str (f4AssignChar c7Rec 1 10 c7Val).2 1 10 =
      c7Val.take 10 ++ List.replicate (10 - c7Val.length) spaceByte ∧
    fmtEx (trimSpace c7Num) 0 = some c7Digits ∧
    f4Str (f4AssignNum c7Rec 11 3 0 fmtEx c7Num).2 11 3 =
      (if c7Digits.length ≤ 3 then
         List.replicate (3 - c7Digits.length) spaceByte ++ c7Digits
       else List.replicate 3 starByte) :=
  ⟨(c7_assign_read_roundtrip c7Rec 1 10 0 fmtEx c7Val c7Digits (by decide)).1.2,
   by decide,
   (c7_assign_read_roundtrip c7Rec 11 3 0 fmtEx c7Num c7Digits (by decide)).2.2.2
     (by decide)⟩

theorem filter_take_prefix_take {α : Type} (p : α → Bool) (l : List α) (m : Nat) :
    (l.take m).filter p = (l.filter p).take ((l.take m).filter p).length :=
  List.prefix_iff_eq_take.mp ((List.take_prefix m l).filter p)

theorem take_succ_of_get? {α : Type} {l : List α} {m : Nat} {a : α}
    (h : l.get? m = some a) :
    l.take (m + 1) = l.take m ++ [a] := by
  rw [List.take_succ, ← List.get?_eq_getElem?, h]
  rfl

theorem packLoop_cons_ok (s sg : St) (c : Int) (i : Nat) (rest : List Nat)
    (hgo : d4Go s (i : Int) = (ErrorNone, sg)) :
    packLoop s c (i :: rest) =
      (if d4Deleted sg then packLoop sg c rest
       else if c + 1 ≠ (i : Int) then
         (if (d4WriteLow sg (c + 1)).1 ≠ ErrorNone then
            ((d4WriteLow sg (c + 1)).1, (d4WriteLow sg (c + 1)).2, c + 1)
          else packLoop (d4WriteLow sg (c + 1)).2 (c + 1) rest)
       else packLoop sg (c + 1) rest) := by
  conv_lhs => simp only [packLoop]
  rw [hgo]
  rw [if_neg (fun hh => hh rfl)]

theorem packLoop_spec (O : List (List Nat)) :
    ∀ (k m c : Nat) (s : St),
      s.file.recs = (O.filter isLiveRec).take c ++ O.drop c →
      s.memCount = (O.length : Int) →
      (O.take m).filter isLiveRec = (O.filter isLiveRec).take c →
      ((O.take m).filter isLiveRec).length = c →
      c ≤ m → m + k = O.length →
      ∃ s1 : St,
        packLoop s (c : Int) (idxFrom (m + 1) k) =
          (ErrorNone, s1, ((O.filter isLiveRec).length : Int)) ∧
        s1.file.recs = O.filter isLiveRec ++ O.drop (O.filter isLiveRec).length ∧
        s1.memCount = (O.length : Int) ∧
        s1.file.hdrCount = s.file.hdrCount ∧
        s1.file.recLen = s.file.recLen := by
  intro k
  induction k with
  | zero =>
      intro m c s h1 h2 h3 h4 h5 h6
      have hm : m = O.length := by omega
      subst hm
      rw [List.take_length] at h4
      subst h4
      refine ⟨s, rfl, ?_, h2, rfl, rfl⟩
      rw [h1, List.take_length]
  | succ k ih =>
      intro m c s h1 h2 h3 h4 h5 h6
      have hmlt : m < O.length := by omega
      have hOm := List.get?_eq_get hmlt
      set om := O.get ⟨m, hmlt⟩ with hom
      have hWcLen : ((O.filter isLiveRec).take c).length = c := by
        rw [← h3]
        exact h4
      have hcleW : c ≤ (O.filter isLiveRec).length := by
        have hmin := List.length_take c (O.filter isLiveRec)
        omega
      have hclt : c < O.length := by omega
      have hrecsLen : s.file.recs.length = O.length := by
        rw [h1, List.length_append, hWcLen, List.length_drop]
        omega
      have hread : s.file.recs.get? m = some om := by
        rw [h1, List.get?_append_right (by rw [hWcLen]; exact h5), hWcLen,
            List.get?_drop]
        rw [(by omega : c + (m - c) = m)]
        exact hOm
      have hidx : (((m + 1 : Nat) : Int) - 1).toNat = m := by omega
      obtain ⟨r, hr, hgo⟩ := d4Go_in_range s ((m + 1 : Nat) : Int)
        (by omega) (by omega) (by omega)
      rw [hidx, hread] at hr
      have hrom : r = om := by
        exact (Option.some.injEq _ _ ▸ hr.symm : _)
      subst hrom
      set sg : St := { s with recordOld := s.record, record := om,
                              recNo := ((m + 1 : Nat) : Int), atEof := false,
                              atBof := ((m + 1 : Nat) : Int) == 1 } with hsg
      have hgfile : sg.file = s.file := rfl
      have hgmem : sg.memCount = s.memCount := rfl
      show ∃ s1, packLoop s (c : Int) ((m + 1) :: idxFrom (m + 1 + 1) k) = _ ∧ _
      rw [packLoop_cons_ok s sg (c : Int) (m + 1) (idxFrom (m + 1 + 1) k) hgo]
      have hdel : d4Deleted sg = (om.getD 0 0 == starByte) := rfl
      cases hlive : (om.getD 0 0 == starByte) with
      | true =>
          rw [hdel, hlive, if_pos rfl]
          have hfilt : (O.take (m + 1)).filter isLiveRec =
              (O.filter isLiveRec).take c := by
            rw [take_succ_of_get? hOm, List.filter_append, List.filter_cons]
            rw [if_neg (by simp only [isLiveRec, hlive, Bool.not_true]; exact Bool.false_ne_true)]
            rw [List.filter_nil, List.append_nil]
            exact h3
          obtain ⟨s1, hpack, hrecs, hmem, hhdr, hlen⟩ :=
            ih (m + 1) c sg (by rw [hgfile]; exact h1) (by rw [hgmem]; exact h2)
              hfilt (by rw [hfilt, hWcLen]) (by omega) (by omega)
          exact ⟨s1, hpack, hrecs, hmem, hhdr, hlen⟩
      | false =>
          rw [hdel, hlive, if_neg Bool.false_ne_true]
          have homLive : isLiveRec om = true := by
            simp only [isLiveRec, hlive, Bool.not_false]
          have hfilt : (O.take (m + 1)).filter isLiveRec =
              (O.filter isLiveRec).take c ++ [om] := by
            rw [take_succ_of_get? hOm, List.filter_append, List.filter_cons]
            rw [if_pos homLive, List.filter_nil]
            rw [h3]
          have hlen2 : ((O.take (m + 1)).filter isLiveRec).length = c + 1 := by
            rw [hfilt, List.length_append, hWcLen]
            rfl
          have hWsucc : (O.filter isLiveRec).take (c + 1) =
              (O.filter isLiveRec).take c ++ [om] := by
            have hpre := filter_take_prefix_take isLiveRec O (m + 1)
            rw [hlen2] at hpre
            rw [← hpre, hfilt]
          have hcast : ((c + 1 : Nat) : Int) = (c : Int) + 1 := by
            push_cast
            ring
          by_cases hcm : c = m
          · rw [if_neg (by omega)]
            have hfin : (⟨c, hclt⟩ : Fin O.length) = ⟨m, hmlt⟩ := Fin.ext hcm
            have hgetc : O.get ⟨c, hclt⟩ = om := by rw [hfin]
            have hrecsSucc : (O.filter isLiveRec).take c ++ O.drop c =
                (O.filter isLiveRec).take (c + 1) ++ O.drop (c + 1) := by
              rw [List.drop_eq_get_cons hclt, hgetc, hWsucc, List.append_cons]
            obtain ⟨s1, hpack, hrecs, hmem, hhdr, hlen⟩ :=
              ih (m + 1) (c + 1) sg
                (by rw [hgfile, h1]; exact hrecsSucc) (by rw [hgmem]; exact h2)
                (by rw [hfilt]; exact hWsucc.symm) hlen2
                (by omega) (by omega)
            rw [hcast] at hpack
            exact ⟨s1, hpack, hrecs, hmem, hhdr, hlen⟩
          · rw [if_pos (by omega)]
            have hwl := d4WriteLow_in_range sg ((c : Int) + 1)
              (by rw [hgmem, h2]; omega)
            rw [hwl]
            rw [if_neg (fun hh => hh rfl)]
            have hidx2 : ((c : Int) + 1 - 1).toNat = c := by omega
            have hsetlt : c < s.file.recs.length := by omega
            have hswrecs :
                storeAt sg.file.recs ((c : Int) + 1 - 1).toNat sg.record sg.file.recLen =
                  (O.filter isLiveRec).take (c + 1) ++ O.drop (c + 1) := by
              rw [hidx2]
              show storeAt s.file.recs c om s.file.recLen = _
              rw [storeAt_lt s.file.recs c om s.file.recLen hsetlt, h1]
              rw [List.set_append]
              rw [if_neg (by rw [hWcLen]; omega)]
              rw [hWcLen, Nat.sub_self]
              rw [List.drop_eq_get_cons hclt, List.set_cons_zero]
              rw [hWsucc, List.append_cons]
            obtain ⟨s1, hpack, hrecs, hmem, hhdr, hlen⟩ :=
              ih (m + 1) (c + 1)
                { sg with file := { sg.file with
                    recs := storeAt sg.file.recs ((c : Int) + 1 - 1).toNat
                              sg.record sg.file.recLen } }
                (by show storeAt sg.file.recs _ sg.record sg.file.recLen = _
                    exact hswrecs)
                (by show sg.memCount = _
                    rw [hgmem]
                    exact h2)
                (by rw [hfilt]; exact hWsucc.symm) hlen2
                (by omega) (by omega)
            rw [hcast] at hpack
            exact ⟨s1, hpack, hrecs, hmem, hhdr, hlen⟩



theorem d4AppendStart_spec (s : St) :
    (d4AppendStart s).1 = ErrorNone ∧
    (d4AppendStart s).2.memCount = s.memCount + 1 ∧
    (d4AppendStart s).2.recNo = s.memCount + 1 ∧
    (d4AppendStart s).2.atEof = false := by
  simp only [d4AppendStart, code4TransInit]
  split
  · exact ⟨rfl, rfl, rfl, rfl⟩
  · exact ⟨rfl, rfl, rfl, rfl⟩

/-- C3: `append` increments the in-memory header record count by exactly
one and positions on the new record; `pack` keeps exactly the live
records with their byte content, in order (so the truncated file is
`headerLen + newCount * recordLen` bytes of surviving records after the
header), reduces the count by the number of deleted records present at
the start and writes it to the header, and repositions to record 1 (or
to the Empty state when nothing survives). -/
theorem c3_append_and_pack (s : St)
    (hc : s.memCount = (s.file.recs.length : Int)) :
    ((d4Append s).1 = ErrorNone ∧
     (d4Append s).2.memCount = s.memCount + 1 ∧
     (d4Append s).2.recNo = s.memCount + 1) ∧
    ((d4Pack s).1 = ErrorNone ∧
     (d4Pack s).2.file.recs = s.file.recs.filter isLiveRec ∧
     (d4Pack s).2.memCount =
       s.memCount - (s.file.recs.countP (fun r => r.getD 0 0 == starByte) : Int) ∧
     (d4Pack s).2.file.hdrCount = (d4Pack s).2.memCount ∧
     (0 < (s.file.recs.filter isLiveRec).length →
        (d4Pack s).2.recNo = 1 ∧ (d4Pack s).2.atBof = true ∧
        (d4Pack s).2.atEof = false) ∧
     ((s.file.recs.filter isLiveRec).length = 0 →
        (d4Pack s).2.recNo = 0 ∧ (d4Pack s).2.atBof = true ∧
        (d4Pack s).2.atEof = true)) := by
  constructor
  · obtain ⟨h1, h2, h3, _⟩ := d4AppendStart_spec s
    unfold d4Append
    rw [if_neg (fun hh => hh h1)]
    exact ⟨rfl, h2, h3⟩
  · have hOn : s.memCount.toNat = s.file.recs.length := by omega
    obtain ⟨s1, hpack, hrecs, hmem, hhdr, hlen⟩ :=
      packLoop_spec s.file.recs s.file.recs.length 0 0 s (by simp) hc
        (by simp) (by simp) (Nat.le_refl 0) (by omega)
    rw [Nat.cast_zero] at hpack
    have hpidx : packIdx s.memCount.toNat = idxFrom (0 + 1) s.file.recs.length := by
      rw [packIdx, hOn]
    have hcnt : ((s.file.recs.filter isLiveRec).length : Int) =
        s.memCount - (s.file.recs.countP (fun r => r.getD 0 0 == starByte) : Int) := by
      have h0 := List.length_eq_countP_add_countP isLiveRec s.file.recs
      have h1' : s.file.recs.countP (fun a => decide ¬(isLiveRec a = true)) =
          s.file.recs.countP (fun r => r.getD 0 0 == starByte) := by
        apply List.countP_congr
        intro a _
        simp [isLiveRec]
      have h2' := List.countP_eq_length_filter isLiveRec s.file.recs
      omega
    have hstep1 : d4Pack s =
        (if ((s.file.recs.filter isLiveRec).length : Int) > 0 then
          d4Top { s1 with
            memCount := ((s.file.recs.filter isLiveRec).length : Int),
            file := { s1.file with
              recs := s1.file.recs.take
                ((s.file.recs.filter isLiveRec).length : Int).toNat,
              hdrCount := ((s.file.recs.filter isLiveRec).length : Int) } }
         else (ErrorNone, { s1 with
            memCount := ((s.file.recs.filter isLiveRec).length : Int),
            file := { s1.file with
              recs := s1.file.recs.take
                ((s.file.recs.filter isLiveRec).length : Int).toNat,
              hdrCount := ((s.file.recs.filter isLiveRec).length : Int) },
            recNo := 0, atEof := true, atBof := true })) := by
      simp only [d4Pack]
      rw [hpidx, hpack]
      rw [if_neg (fun hh => hh rfl)]
    have hs2recs : s1.file.recs.take
        ((s.file.recs.filter isLiveRec).length : Int).toNat =
        s.file.recs.filter isLiveRec := by
      rw [hrecs, Int.toNat_natCast]
      exact List.take_left _ _
    by_cases hWpos : 0 < (s.file.recs.filter isLiveRec).length
    · rw [hstep1, if_pos (by exact_mod_cast hWpos)]
      set s2 : St := { s1 with
        memCount := ((s.file.recs.filter isLiveRec).length : Int),
        file := { s1.file with
          recs := s1.file.recs.take
            ((s.file.recs.filter isLiveRec).length : Int).toNat,
          hdrCount := ((s.file.recs.filter isLiveRec).length : Int) } } with hs2
      have hm2 : s2.memCount = ((s.file.recs.filter isLiveRec).length : Int) := rfl
      have hr2 : s2.file.recs = s.file.recs.filter isLiveRec := hs2recs
      have hl2 : s2.file.recs.length = (s.file.recs.filter isLiveRec).length := by
        rw [hr2]
      obtain ⟨r1, hr1, hgo1⟩ := d4Go_in_range s2 1 (by omega) (by omega) (by omega)
      have htop : d4Top s2 = d4Go s2 1 := by
        unfold d4Top
        rw [if_neg (by omega)]
      rw [htop, hgo1]
      exact ⟨rfl, hr2, hcnt, rfl, fun _ => ⟨rfl, rfl, rfl⟩,
             fun h0 => absurd h0 (by omega)⟩
    · have hW0 : (s.file.recs.filter isLiveRec).length = 0 := by omega
      rw [hstep1, if_neg (by exact_mod_cast hWpos)]
      exact ⟨rfl, hs2recs, hcnt, rfl, fun hp => absurd hp hWpos,
             fun _ => ⟨rfl, rfl, rfl⟩⟩


/-- Witness for C3 at `navS` (three records, one deleted): append bumps
the count to 4; pack keeps the two live records and sets the count to 2. -/
theorem c3_append_and_pack_witness :
    (d4Append navS).2.memCount = navS.memCount + 1 ∧
    (d4Pack navS).2.file.recs = navS.file.recs.filter isLiveRec ∧
    (d4Pack navS).2.memCount =
      navS.memCount - (navS.file.recs.countP (fun r => r.getD 0 0 == starByte) : Int) :=
  ⟨(c3_append_and_pack navS (by decide)).1.2.1,
   (c3_append_and_pack navS (by decide)).2.2.1,
   (c3_append_and_pack navS (by decide)).2.2.2.1⟩

/-- C1: the rollback law fails on the code.  On the one-record file
`rbS0` (record 1 on disk is `[' ', 'A']`), a journaled update inside an
active transaction logs `RecordOld` as the saved bytes — but `D4Go`
filled `RecordOld` with the buffer that was current *before* moving onto
record 1 (the zeroed open-time buffer), not with record 1's own
pre-transaction bytes.  Rollback therefore rewrites record 1 with
`[0, 0]` instead of restoring `[' ', 'A']`: the pre-transaction byte
content of the data file is not restored. -/
theorem c1_rollback_divergence :
    (d4Go rbS0 1).1 = ErrorNone ∧
    (d4WriteTrans rbS2).1 = ErrorNone ∧
    rbS3.translog = [TEntry.updateE 1 [0, 0]] ∧
    rbS4.1 = ErrorNone ∧
    rbS0.file.recs = [[32, 65]] ∧
    rbS4.2.file.recs = [[0, 0]] ∧
    rbS4.2.file ≠ rbS0.file := by
  decide

/-- C2: the seek three-way law fails on the code.  In the single-leaf
numeric tag `seekBlocks` (keys `" 30"` -> record 1 and `"100"` ->
record 2, stored in increasing byte order), seeking the formatted key
`"100"` returns `After` positioned at record 1 — whose key `" 30"` is
byte-wise *smaller* than the search key (`lexCmp` = -1) — even though a
record whose formatted key equals the search key exactly is present in
the tag.  The binary search compares the search key against the
*trimmed* stored keys, which is inconsistent with the byte order of the
stored (padded) keys. -/
theorem c2_seek_misses_exact_key :
    b4Seek seekBlocks 2 seekKey = (R4After, 1) ∧
    seekLeaf.keys.map B4Key.keyData = [[32, 51, 48], seekKey] ∧
    seekLeaf.keys.get? 1 = some { keyData := seekKey, recNo := 2 } ∧
    lexCmp [32, 51, 48] seekKey = -1 := by
  decide



end Foxi
